import Mathlib

/-!
Shallow embedding of `src/sierpinski.py`, the Sierpiński gasket generator.

The Python program represents a gasket as a dictionary with a list of
triangle centers (pairs of floats) and a shared radius (a float).  Floats
are modelled as real numbers.  The argument of `Sierpinski_gasket` may in
Python be an int, a float or a string; the validation on line 27 of the
source distinguishes these, so the argument is modelled by the inductive
type `PyVal` below (floats carried as rationals, which every Python float
is).  Raising `TypeError` is modelled by `Except.error PyError.typeError`.
-/

/-- The only error kind raised by the core: Python's `TypeError`
(line 28 of the source). -/
inductive PyError where
  | typeError
deriving DecidableEq

/-- A Python value that could be passed as the `order` argument:
an integer (`int`/`long` collapse to `Int`), a float, or a string. -/
inductive PyVal where
  | int : Int → PyVal
  | float : ℚ → PyVal
  | str : String → PyVal
deriving DecidableEq

/-- Python 2 evaluation of `order < 0`: a numeric comparison for ints and
floats; in Python 2 a string compares greater than any number, so for a
string the test is `False`. -/
def pyLtZero : PyVal → Bool
  | .int n => n < 0
  | .float q => q < 0
  | .str _ => false

/-- Python's `isinstance(order, (int, long))`. -/
def isinstance_int_long : PyVal → Bool
  | .int _ => true
  | .float _ => false
  | .str _ => false

/-- A gasket: `{'centers': [...], 'radius': r}` (line 21 and line 41). -/
structure Gasket where
  centers : List (ℝ × ℝ)
  radius : ℝ

/-- `initial = {'centers':[(0, 0),], 'radius':1.0}` (line 21). -/
def initial : Gasket := { centers := [((0 : ℝ), (0 : ℝ))], radius := 1 }

/-- `split_triangle(center, radius)` (lines 43–50): the three child
centers, top, bottom-right, bottom-left, in that order. -/
noncomputable def split_triangle (center : ℝ × ℝ) (radius : ℝ) : List (ℝ × ℝ) :=
  [(center.1, center.2 + radius / 2),
   (center.1 + Real.sqrt 3 * radius / 4, center.2 - radius / 4),
   (center.1 - Real.sqrt 3 * radius / 4, center.2 - radius / 4)]

/-- `finegrain(gasket)` (lines 34–41): the list comprehension
`[newcenter for center in gasket['centers'] for newcenter in
split_triangle(center, gasket['radius'])]` is a flat map, and the new
radius is half the old. -/
noncomputable def finegrain (gasket : Gasket) : Gasket :=
  { centers := gasket.centers.flatMap (fun center => split_triangle center gasket.radius),
    radius := gasket.radius / 2 }

/-- `Sierpinski_gasket(order)` (lines 23–32).  The guard on line 27 raises
`TypeError` for a negative number or a non-integer; otherwise order `0`
returns `initial` and order `n` recurses on `n - 1`.  The non-int cases
after the guard are unreachable, since the guard already raised for them. -/
noncomputable def Sierpinski_gasket (order : PyVal) : Except PyError Gasket :=
  if hvalid : pyLtZero order = true ∨ isinstance_int_long order = false then
    .error .typeError
  else
    match order with
    | .int n =>
      if h0 : n = 0 then .ok initial
      else (Sierpinski_gasket (.int (n - 1))).map finegrain
    | .float _ => .error .typeError
    | .str _ => .error .typeError
termination_by (match order with | .int n => n.toNat | _ => 0)
decreasing_by
  simp_wf
  simp only [pyLtZero, isinstance_int_long, decide_eq_true_eq] at hvalid
  omega

/-- The gasket produced at a given (non-negative, integer) order: the
order-indexed unfolding of the recursion in `Sierpinski_gasket`, used to
state and prove properties by induction on the order. -/
noncomputable def gasketAtOrder : Nat → Gasket
  | 0 => initial
  | n + 1 => finegrain (gasketAtOrder n)

/-- `Sierpinski_gasket` instrumented with explicit fuel: each unit of fuel
pays for one call frame, so the fuel needed measures the recursion depth
of the Python function on a valid order. -/
noncomputable def gasketWithFuel : Nat → Int → Option Gasket
  | 0, _ => none
  | fuel + 1, n =>
      if n = 0 then some initial
      else (gasketWithFuel fuel (n - 1)).map finegrain

/-- The proof-side induction invariant for the bounding box: a center of a
gasket of radius `r` lies in the order-0 triangle shrunk toward its
vertices by `r`.  At `r = 1` it pins the seed center `(0, 0)`; as `r`
shrinks it relaxes toward the renderer box `x ∈ [-√3/2, √3/2]`,
`y ∈ [-1/2, 1]` (lines 61-62 of the source). -/
def inBox (r : ℝ) (c : ℝ × ℝ) : Prop :=
  Real.sqrt 3 * (r - 1) / 2 ≤ c.1 ∧ c.1 ≤ Real.sqrt 3 * (1 - r) / 2 ∧
  r / 2 - 1 / 2 ≤ c.2 ∧ c.2 ≤ 1 - r

/-- Unfolding: order 0 returns `initial` (lines 29-30). -/
theorem Sierpinski_gasket_zero : Sierpinski_gasket (.int 0) = .ok initial := by
  rw [Sierpinski_gasket]
  simp [pyLtZero, isinstance_int_long]

/-- Unfolding: a positive integer order recurses through `finegrain` (lines 31-32). -/
theorem Sierpinski_gasket_succ (n : Int) (hn : 0 <= n) :
    Sierpinski_gasket (.int (n + 1)) = (Sierpinski_gasket (.int n)).map finegrain := by
  rw [Sierpinski_gasket]
  simp [pyLtZero, isinstance_int_long]
  rw [if_neg (by omega), if_neg (by omega)]

/-- Bridge: on a natural-number order the recursion computes `gasketAtOrder`. -/
theorem Sierpinski_gasket_natCast (k : Nat) :
    Sierpinski_gasket (.int k) = .ok (gasketAtOrder k) := by
  induction k with
  | zero => exact Sierpinski_gasket_zero
  | succ m ih =>
      have : ((m + 1 : Nat) : Int) = (m : Int) + 1 := by push_cast; ring
      rw [this, Sierpinski_gasket_succ m (by positivity), ih]
      rfl

/-- Bridge: on a non-negative integer order the recursion computes `gasketAtOrder`. -/
theorem Sierpinski_gasket_int (n : Int) (hn : 0 <= n) :
    Sierpinski_gasket (.int n) = .ok (gasketAtOrder n.toNat) := by
  have h : n = (n.toNat : Int) := (Int.toNat_of_nonneg hn).symm
  rw [h]
  exact Sierpinski_gasket_natCast n.toNat

/-- Each call to `finegrain` triples the number of centers. -/
theorem finegrain_length (g : Gasket) :
    (finegrain g).centers.length = 3 * g.centers.length := by
  simp only [finegrain]
  induction g.centers with
  | nil => rfl
  | cons c l ih =>
      rw [List.flatMap_cons, List.length_append, ih]
      simp only [split_triangle, List.length_cons, List.length_nil]
      ring

/-- The order-`k` gasket has `3 ^ k` centers. -/
theorem gasketAtOrder_length (k : Nat) :
    (gasketAtOrder k).centers.length = 3 ^ k := by
  induction k with
  | zero => rfl
  | succ m ih =>
      simp only [gasketAtOrder]
      rw [finegrain_length, ih]
      ring

/-- The order-`k` gasket has radius `1 / 2 ^ k`. -/
theorem gasketAtOrder_radius (k : Nat) :
    (gasketAtOrder k).radius = 1 / 2 ^ k := by
  induction k with
  | zero => norm_num [gasketAtOrder, initial]
  | succ m ih =>
      simp only [gasketAtOrder, finegrain, ih]
      ring

/-- Claim C1: for every gasket with centers `[c1, ..., cn]` and radius `r`,
`finegrain` returns the gasket whose centers are, in input iteration order,
the three children of each `ci = (x, y)` in the fixed order top
`(x, y + r/2)`, bottom-right `(x + √3·r/4, y - r/4)`, bottom-left
`(x - √3·r/4, y - r/4)`, and whose radius is `r / 2`. -/
theorem C1_finegrain_children (g : Gasket) :
    (finegrain g).centers =
      g.centers.flatMap (fun c =>
        [(c.1, c.2 + g.radius / 2),
         (c.1 + Real.sqrt 3 * g.radius / 4, c.2 - g.radius / 4),
         (c.1 - Real.sqrt 3 * g.radius / 4, c.2 - g.radius / 4)]) ∧
    (finegrain g).radius = g.radius / 2 :=
  ⟨rfl, rfl⟩

/-- Claim C2: for every integer `order ≥ 0`, `Sierpinski_gasket order`
returns a gasket with exactly `3 ^ order` centers. -/
theorem C2_center_count (n : Int) (hn : 0 ≤ n) :
    ∃ g, Sierpinski_gasket (.int n) = .ok g ∧ g.centers.length = 3 ^ n.toNat :=
  ⟨gasketAtOrder n.toNat, Sierpinski_gasket_int n hn, gasketAtOrder_length n.toNat⟩

/-- Witness for C2 at `order = 2`: `3 ^ 2 = 9` centers. -/
theorem C2_center_count_witness :
    ∃ g, Sierpinski_gasket (.int 2) = .ok g ∧ g.centers.length = 3 ^ (2 : Int).toNat :=
  C2_center_count 2 (by norm_num)

/-- Claim C3: for every integer `order ≥ 0`, the radius of
`Sierpinski_gasket order` equals `1.0 / 2 ^ order`. -/
theorem C3_radius_value (n : Int) (hn : 0 ≤ n) :
    ∃ g, Sierpinski_gasket (.int n) = .ok g ∧ g.radius = 1 / 2 ^ n.toNat :=
  ⟨gasketAtOrder n.toNat, Sierpinski_gasket_int n hn, gasketAtOrder_radius n.toNat⟩

/-- Witness for C3 at `order = 3`: radius `1 / 8`. -/
theorem C3_radius_value_witness :
    ∃ g, Sierpinski_gasket (.int 3) = .ok g ∧ g.radius = 1 / 2 ^ (3 : Int).toNat :=
  C3_radius_value 3 (by norm_num)

/-- Claim C4: `Sierpinski_gasket 0` returns exactly the seed gasket, whose
centers list is `[(0, 0)]` and whose radius is `1.0`. -/
theorem C4_order_zero :
    Sierpinski_gasket (.int 0) = .ok initial ∧
    initial.centers = [((0 : ℝ), (0 : ℝ))] ∧ initial.radius = 1 :=
  ⟨Sierpinski_gasket_zero, rfl, rfl⟩

/-- Claim C5: for every integer `N ≥ 0`, `finegrain` applied to
`Sierpinski_gasket N` yields the same gasket as `Sierpinski_gasket (N + 1)`. -/
theorem C5_subdivide_generate (n : Int) (hn : 0 ≤ n) :
    Sierpinski_gasket (.int (n + 1)) = (Sierpinski_gasket (.int n)).map finegrain :=
  Sierpinski_gasket_succ n hn

/-- Witness for C5 at `N = 2`. -/
theorem C5_subdivide_generate_witness :
    Sierpinski_gasket (.int ((2 : Int) + 1)) = (Sierpinski_gasket (.int 2)).map finegrain :=
  C5_subdivide_generate 2 (by norm_num)

/-- Claim C6: `Sierpinski_gasket order` fails with the `TypeError` raised by
the validation guard if and only if `order` is not a non-negative integer
(negative integers, floats such as `5/2`, and strings all fail); since the
result is an `Except` with `typeError` as the only error kind, a valid
order never produces any error. -/
theorem C6_validation (v : PyVal) :
    Sierpinski_gasket v = .error .typeError ↔ ¬ ∃ n : Int, v = .int n ∧ 0 ≤ n := by
  cases v with
  | int n =>
      by_cases hn : 0 ≤ n
      · rw [Sierpinski_gasket_int n hn]
        simp only [reduceCtorEq, false_iff, not_not]
        exact ⟨n, rfl, hn⟩
      · rw [Sierpinski_gasket]
        rw [dif_pos (Or.inl (by simp [pyLtZero]; omega))]
        simp only [true_iff]
        rintro ⟨m, hm, hm0⟩
        injection hm with hm
        omega
  | float q =>
      rw [Sierpinski_gasket]
      rw [dif_pos (Or.inr (by simp [isinstance_int_long]))]
      simp
  | str s =>
      rw [Sierpinski_gasket]
      rw [dif_pos (Or.inr (by simp [isinstance_int_long]))]
      simp

/-- Witness for C6: `-1`, the float `5/2` and a string all raise
`TypeError`. -/
theorem C6_validation_witness :
    Sierpinski_gasket (.int (-1)) = .error .typeError ∧
    Sierpinski_gasket (.float (5 / 2)) = .error .typeError ∧
    Sierpinski_gasket (.str "abc") = .error .typeError :=
  ⟨(C6_validation (.int (-1))).mpr (by rintro ⟨n, hn, h0⟩; injection hn with hn; omega),
   (C6_validation (.float (5 / 2))).mpr (by rintro ⟨n, hn, h0⟩; exact PyVal.noConfusion hn),
   (C6_validation (.str "abc")).mpr (by rintro ⟨n, hn, h0⟩; exact PyVal.noConfusion hn)⟩

/-- Claim C7: `Sierpinski_gasket` is deterministic and pure: it is a
function of its argument alone, so two calls on equal orders return equal
results; the shallow embedding is total and effect-free, mirroring the
absence of state, randomness and side effects in the source. -/
theorem C7_deterministic (v w : PyVal) (h : v = w) :
    Sierpinski_gasket v = Sierpinski_gasket w :=
  congrArg Sierpinski_gasket h

/-- Witness for C7 at `order = 4`. -/
theorem C7_deterministic_witness :
    Sierpinski_gasket (.int 4) = Sierpinski_gasket (.int 4) :=
  C7_deterministic (.int 4) (.int 4) rfl

/-- `k + 1` call frames (depth `k` of recursion below the top-level call)
suffice to compute order `k`. -/
theorem gasketWithFuel_enough (k : Nat) :
    gasketWithFuel (k + 1) (k : Int) = some (gasketAtOrder k) := by
  induction k with
  | zero => rfl
  | succ m ih =>
      rw [gasketWithFuel]
      rw [if_neg (by omega)]
      rw [show ((m + 1 : Nat) : Int) - 1 = (m : Int) by push_cast; ring, ih]
      rfl

/-- `k` call frames do not suffice to compute order `k`. -/
theorem gasketWithFuel_short (k : Nat) :
    gasketWithFuel k (k : Int) = none := by
  induction k with
  | zero => rfl
  | succ m ih =>
      rw [gasketWithFuel]
      rw [if_neg (by omega)]
      rw [show ((m + 1 : Nat) : Int) - 1 = (m : Int) by push_cast; ring, ih]
      rfl

/-- Claim C8: for every integer `order ≥ 0` the recursion terminates,
returning a gasket; the fuel-instrumented recursion succeeds with exactly
`order + 1` call frames (recursion depth `order`) and runs out with fewer,
so each recursive call decreases the order by 1 down to the base case. -/
theorem C8_termination (n : Int) (hn : 0 ≤ n) :
    Sierpinski_gasket (.int n) = .ok (gasketAtOrder n.toNat) ∧
    gasketWithFuel (n.toNat + 1) n = some (gasketAtOrder n.toNat) ∧
    gasketWithFuel n.toNat n = none := by
  have h : n = (n.toNat : Int) := (Int.toNat_of_nonneg hn).symm
  refine ⟨Sierpinski_gasket_int n hn, ?_, ?_⟩
  · rw [h]; exact gasketWithFuel_enough n.toNat
  · rw [h]; exact gasketWithFuel_short n.toNat

/-- Witness for C8 at `order = 2`: depth exactly 2. -/
theorem C8_termination_witness :
    Sierpinski_gasket (.int 2) = .ok (gasketAtOrder (2 : Int).toNat) ∧
    gasketWithFuel ((2 : Int).toNat + 1) 2 = some (gasketAtOrder (2 : Int).toNat) ∧
    gasketWithFuel (2 : Int).toNat 2 = none :=
  C8_termination 2 (by norm_num)

/-- Claim C9: gaskets are immutable values in this embedding, and
`finegrain` returns a gasket distinct from its input (its radius is
halved), so no gasket with nonzero radius is ever modified in place. -/
theorem C9_fresh_value (g : Gasket) (h : g.radius ≠ 0) : finegrain g ≠ g := by
  intro he
  have hr : (finegrain g).radius = g.radius := congrArg Gasket.radius he
  simp only [finegrain] at hr
  exact h (by linarith)

/-- Witness for C9: subdividing the seed gasket yields a new value. -/
theorem C9_fresh_value_witness : finegrain initial ≠ initial :=
  C9_fresh_value initial (by norm_num [initial])


/-- `split_triangle` preserves the shrinking-box invariant: the children of
a center inside the box for radius `r` lie inside the box for `r / 2`. -/
theorem split_triangle_inBox (r : ℝ) (hr : 0 ≤ r) (c : ℝ × ℝ) (hc : inBox r c) :
    ∀ d ∈ split_triangle c r, inBox (r / 2) d := by
  have hs : (0 : ℝ) ≤ Real.sqrt 3 := Real.sqrt_nonneg 3
  have hsr : (0 : ℝ) ≤ Real.sqrt 3 * r := mul_nonneg hs hr
  obtain ⟨h1, h2, h3, h4⟩ := hc
  intro d hd
  simp only [split_triangle, List.mem_cons, List.not_mem_nil, or_false] at hd
  rcases hd with rfl | rfl | rfl <;>
    exact ⟨by nlinarith, by nlinarith, by nlinarith, by nlinarith⟩

/-- The radius at every order is non-negative. -/
theorem gasketAtOrder_radius_nonneg (k : Nat) : 0 ≤ (gasketAtOrder k).radius := by
  rw [gasketAtOrder_radius]
  positivity

/-- Every center of the order-`k` gasket satisfies the box invariant. -/
theorem gasketAtOrder_inBox (k : Nat) :
    ∀ c ∈ (gasketAtOrder k).centers, inBox (gasketAtOrder k).radius c := by
  induction k with
  | zero =>
      intro c hc
      simp only [gasketAtOrder, initial, List.mem_singleton] at hc
      subst hc
      norm_num [inBox, gasketAtOrder, initial]
  | succ m ih =>
      intro c hc
      simp only [gasketAtOrder, finegrain, List.mem_flatMap] at hc
      obtain ⟨p, hp, hcp⟩ := hc
      have hbox := split_triangle_inBox (gasketAtOrder m).radius
        (gasketAtOrder_radius_nonneg m) p (ih p hp) c hcp
      simpa [gasketAtOrder, finegrain] using hbox

/-- Claim C10: for every integer `order ≥ 0`, every center `(x, y)` of
`Sierpinski_gasket order` lies within the fixed bounding box
`-√3/2 ≤ x ≤ √3/2` and `-0.5 ≤ y ≤ 1` used by the renderer as plot
limits. -/
theorem C10_bounding_box (n : Int) (hn : 0 ≤ n) (g : Gasket)
    (hg : Sierpinski_gasket (.int n) = .ok g) :
    ∀ c ∈ g.centers,
      -(Real.sqrt 3 / 2) ≤ c.1 ∧ c.1 ≤ Real.sqrt 3 / 2 ∧
      -(1 / 2 : ℝ) ≤ c.2 ∧ c.2 ≤ 1 := by
  rw [Sierpinski_gasket_int n hn] at hg
  injection hg with hg
  subst hg
  intro c hc
  have hin := gasketAtOrder_inBox n.toNat c hc
  have hr0 := gasketAtOrder_radius_nonneg n.toNat
  have hs : (0 : ℝ) ≤ Real.sqrt 3 := Real.sqrt_nonneg 3
  have hsr : (0 : ℝ) ≤ Real.sqrt 3 * (gasketAtOrder n.toNat).radius := mul_nonneg hs hr0
  obtain ⟨h1, h2, h3, h4⟩ := hin
  exact ⟨by nlinarith, by nlinarith, by linarith, by linarith⟩

/-- Witness for C10: the seed center `(0, 0)` lies in the box. -/
theorem C10_bounding_box_witness :
    -(Real.sqrt 3 / 2) ≤ (0 : ℝ) ∧ (0 : ℝ) ≤ Real.sqrt 3 / 2 ∧
    -(1 / 2 : ℝ) ≤ (0 : ℝ) ∧ (0 : ℝ) ≤ 1 :=
  C10_bounding_box 0 (by norm_num) initial Sierpinski_gasket_zero
    ((0 : ℝ), (0 : ℝ)) (by simp [initial])
